import Mathlib

/-!
Verification of the ALMOCO weekly lunch-attendance application (src/app.py).

This file gives a shallow embedding of the application's core logic:
calendar utilities, the class-name identity resolver, the weekly
aggregation/reconciliation of responses and imported headcounts, the
self-service submission endpoint, the bulk headcount import, and the
backup-restore path.  Dates are modelled as proleptic-Gregorian ordinals
(`Nat`, with ordinal 1 = 0001-01-01, a Monday), exactly the representation
underlying Python's `datetime.date`: `date.weekday()` is `(ordinal - 1) % 7`
and `timedelta` arithmetic is ordinal arithmetic.  ISO date strings are in
one-to-one correspondence with ordinals (Python's `isoformat` zero-pads the
year to four digits, so string comparison agrees with date comparison);
store rows therefore carry the ordinal directly where the database carries
the ISO string.
-/

namespace Almoco

/-! ## Python string primitives

`str.strip`, `str.lower`, `str.upper` and single-character `str.replace`
as used by `app.py`.  `lower`/`upper` are modelled on ASCII and the
Latin-1 letter block (the alphabets occurring in the application's data);
other code points are left unchanged.
-/

/-- Characters removed by Python `str.strip()` (ASCII whitespace). -/
def isPySpace (c : Char) : Bool :=
  c = ' ' || c = '\t' || c = '\n' || c = '\x0d' || c = '\x0b' || c = '\x0c'

/-- Python `str.strip()` on a character list. -/
def stripChars (cs : List Char) : List Char :=
  ((cs.dropWhile isPySpace).reverse.dropWhile isPySpace).reverse

/-- Python `str.strip()`. -/
def pyStrip (s : String) : String :=
  String.mk (stripChars s.toList)

/-- Python `str.lower()` on one character: ASCII `A`-`Z` and the Latin-1
uppercase letters `À`(U+00C0)-`Þ`(U+00DE) except `×`(U+00D7) map down by
0x20; everything else is unchanged. -/
def pyLowerChar (c : Char) : Char :=
  if 'A' ≤ c && c ≤ 'Z' then Char.ofNat (c.toNat + 32)
  else if 0xC0 ≤ c.toNat && c.toNat ≤ 0xDE && c.toNat ≠ 0xD7 then Char.ofNat (c.toNat + 32)
  else c

/-- Python `str.upper()` on one character (inverse range of `pyLowerChar`). -/
def pyUpperChar (c : Char) : Char :=
  if 'a' ≤ c && c ≤ 'z' then Char.ofNat (c.toNat - 32)
  else if 0xE0 ≤ c.toNat && c.toNat ≤ 0xFE && c.toNat ≠ 0xF7 then Char.ofNat (c.toNat - 32)
  else c

/-- Python `str.lower()`. -/
def pyLower (s : String) : String := String.mk (s.toList.map pyLowerChar)

/-- Python `str.upper()`. -/
def pyUpper (s : String) : String := String.mk (s.toList.map pyUpperChar)

/-- Single-character `str.replace(old, new)` (the only form `app.py` uses). -/
def replaceChar (old new : Char) (s : String) : String :=
  String.mk (s.toList.map fun c => if c = old then new else c)

/-- The accent-folding table of `normalize_header` in `app.py`: the thirteen
lowercase accented characters it replaces (and no others). -/
def foldAccentChar (c : Char) : Char :=
  if c = 'á' || c = 'à' || c = 'â' || c = 'ã' then 'a'
  else if c = 'é' || c = 'ê' then 'e'
  else if c = 'í' then 'i'
  else if c = 'ó' || c = 'ô' || c = 'õ' then 'o'
  else if c = 'ú' then 'u'
  else if c = 'ç' then 'c'
  else c

/-- `normalize_header` from `app.py`: strip, lowercase, then fold the listed
accented characters to ASCII. -/
def normalize_header (s : String) : String :=
  String.mk ((stripChars s.toList).map fun c => foldAccentChar (pyLowerChar c))

/-- Split a character list at every occurrence of `sep` (Python
`str.split(sep)` with a one-character separator: empty pieces are kept,
and the empty string yields one empty piece). -/
def splitChar (sep : Char) : List Char → List (List Char)
  | [] => [[]]
  | c :: rest =>
    match splitChar sep rest with
    | [] => if c = sep then [[], []] else [[c]]
    | h :: t => if c = sep then [] :: h :: t else (c :: h) :: t

/-- Python `str.split(sep)` for a one-character separator. -/
def pySplit (sep : Char) (s : String) : List String :=
  (splitChar sep s.toList).map String.mk

/-- Substring containment (Python `in` on strings), as a prefix-at-some-
position search over character lists. -/
def startsWithChars : List Char → List Char → Bool
  | [], _ => true
  | _ :: _, [] => false
  | a :: as, b :: bs => a = b && startsWithChars as bs

/-- Whether `needle` occurs as a contiguous substring of `hay`. -/
def hasSubChars (needle : List Char) : List Char → Bool
  | [] => startsWithChars needle []
  | c :: rest => startsWithChars needle (c :: rest) || hasSubChars needle rest

/-- Python `needle in hay` for strings. -/
def strContains (hay needle : String) : Bool :=
  hasSubChars needle.toList hay.toList

/-! ## Calendar utilities (`week_start` and friends)

Dates are proleptic-Gregorian ordinals: `toOrdinal 1 1 1 = 1`, and that day
is a Monday, so Python's `date.weekday()` (Monday = 0) is `(n - 1) % 7`.
-/

/-- Python `date.weekday()` on the ordinal representation (Monday = 0). -/
def pyWeekday (n : Nat) : Nat := (n - 1) % 7

/-- `week_start` from `app.py`: `given_date - timedelta(days=given_date.weekday())`. -/
def week_start (n : Nat) : Nat := n - pyWeekday n

/-- Gregorian leap-year test. -/
def isLeap (y : Nat) : Bool := (y % 4 = 0 && y % 100 ≠ 0) || y % 400 = 0

/-- Days in a month of a (non-leap-adjusted) year. -/
def daysInMonth (y m : Nat) : Nat :=
  if m = 2 then (if isLeap y then 29 else 28)
  else if m = 4 || m = 6 || m = 9 || m = 11 then 30
  else 31

/-- Days before the first of month `m` in a common year. -/
def daysBeforeMonth (m : Nat) : Nat :=
  [0, 0, 31, 59, 90, 120, 151, 181, 212, 243, 273, 304, 334].getD m 0

/-- `date(y, m, d).toordinal()`: days since 0000-12-31. -/
def toOrdinal (y m d : Nat) : Nat :=
  365 * (y - 1) + (y - 1) / 4 - (y - 1) / 100 + (y - 1) / 400
    + daysBeforeMonth m + (if 2 < m && isLeap y then 1 else 0) + d

/-- Inverse of `toOrdinal` (the civil-from-days algorithm; day 0 of the
shifted count is 0000-03-01).  Used only to render ordinals back to
`YYYY-MM-DD` text, as Python's `str(date)` does. -/
def fromOrdinal (n : Nat) : Nat × Nat × Nat :=
  let z := n + 305
  let era := z / 146097
  let doe := z % 146097
  let yoe := (doe - doe / 1460 + doe / 36524 - doe / 146096) / 365
  let y := yoe + era * 400
  let doy := doe - (365 * yoe + yoe / 4 - yoe / 100)
  let mp := (5 * doy + 2) / 153
  let d := doy - (153 * mp + 2) / 5 + 1
  let m := if mp < 10 then mp + 3 else mp - 9
  (if m ≤ 2 then y + 1 else y, m, d)

/-- Left-pad a numeral with zeros to width `k`. -/
def padZero (k : Nat) (n : Nat) : String :=
  let s := toString n
  String.mk (List.replicate (k - s.length) '0') ++ s

/-- Python `date.isoformat()` on the ordinal representation. -/
def isoformat (n : Nat) : String :=
  let ymd := fromOrdinal n
  padZero 4 ymd.1 ++ "-" ++ padZero 2 ymd.2.1 ++ "-" ++ padZero 2 ymd.2.2

/-- Whether every character of a nonempty list is an ASCII digit
(Python `str.isdigit()` restricted to ASCII digits). -/
def isDigitChars (cs : List Char) : Bool :=
  cs ≠ [] && cs.all Char.isDigit

/-- Python `str.isdigit()`. -/
def pyIsDigit (s : String) : Bool := isDigitChars s.toList

/-- Numeric value of a digit list. -/
def digitsToNat (cs : List Char) : Nat :=
  cs.foldl (fun acc c => 10 * acc + (c.toNat - '0'.toNat)) 0

/-- `parse_iso_date` from `app.py`, i.e. `datetime.strptime(value, "%Y-%m-%d")`
followed by `.date()`: exactly four year digits, one or two month digits with
value 1..12, one or two day digits with value 1..days-in-month, whole string
consumed, year at least 1; returns the ordinal, or `none` on the
`ValueError` path. -/
def parse_iso_date (value : String) : Option Nat :=
  match (splitChar '-' value.toList) with
  | [ys, ms, ds] =>
    if isDigitChars ys && ys.length = 4
        && isDigitChars ms && ms.length ≤ 2
        && isDigitChars ds && ds.length ≤ 2 then
      let y := digitsToNat ys
      let m := digitsToNat ms
      let d := digitsToNat ds
      if 1 ≤ y && 1 ≤ m && m ≤ 12 && 1 ≤ d && d ≤ daysInMonth y m then
        some (toOrdinal y m d)
      else none
    else none
  | _ => none

/-! ## Class enumeration and the identity resolver (`map_turma_value`) -/

/-- `TURMAS` from `app.py`: the canonical class codes plus the staff
pseudo-class. -/
def TURMAS : List String :=
  ["TIN I", "TIN II", "TIN III", "TAI I", "TAI II", "TAI III",
   "TST I", "TST II", "TST III", "SERVIDORES"]

/-- `TURMAS_LABEL` from `app.py`, as an association list in the source's
dict insertion order. -/
def TURMAS_LABEL : List (String × String) :=
  [("TAI I", "TÉCNICO EM AUTOMAÇÃO INDUSTRIAL – 1"),
   ("TAI II", "TÉCNICO EM AUTOMAÇÃO INDUSTRIAL – 2"),
   ("TAI III", "TÉCNICO EM AUTOMAÇÃO INDUSTRIAL – 3"),
   ("TIN I", "TÉCNICO EM INFORMÁTICA – 1"),
   ("TIN II", "TÉCNICO EM INFORMÁTICA – 2"),
   ("TIN III", "TÉCNICO EM INFORMÁTICA – 3"),
   ("TST I", "TÉCNICO EM SEGURANÇA DO TRABALHO – 1"),
   ("TST II", "TÉCNICO EM SEGURANÇA DO TRABALHO – 2"),
   ("TST III", "TÉCNICO EM SEGURANÇA DO TRABALHO – 3"),
   ("SERVIDORES", "SERVIDORES")]

/-- `TURMAS_ORDEM_QUADRO` from `app.py`: the display permutation for the
weekly grid. -/
def TURMAS_ORDEM_QUADRO : List String :=
  ["TAI I", "TAI II", "TAI III", "TIN I", "TIN II", "TIN III",
   "TST I", "TST II", "TST III", "SERVIDORES"]

/-- `DIAS_SEMANA` from `app.py`. -/
def DIAS_SEMANA : List String := ["seg", "ter", "qua", "qui", "sex"]

/-- The series-digit search of `map_turma_value`:
`re.search(r"([123])(?=[^0-9]|$)", normalized)` — the first character in
`1`/`2`/`3` that is not immediately followed by another digit. -/
def findSerie : List Char → Option Char
  | [] => none
  | c :: rest =>
    if (c = '1' || c = '2' || c = '3')
        && (match rest with | [] => true | d :: _ => !d.isDigit) then
      some c
    else findSerie rest

/-- `map_turma_value` from `app.py`: the identity resolver.  In order, first
match wins: empty after normalization ⇒ no match; exact match against a
canonical code; exact match against a canonical code's full label; the
substring `servidor` ⇒ the staff pseudo-class; otherwise a series digit
1-3 combined with a program keyword; else no match. -/
def map_turma_value (value : String) : Option String :=
  let normalized := normalize_header value
  if normalized = "" then none
  else match TURMAS.find? (fun turma => normalize_header turma = normalized) with
  | some turma => some turma
  | none =>
    match TURMAS_LABEL.find? (fun p => normalize_header p.2 = normalized) with
    | some p => some p.1
    | none =>
      if strContains normalized "servidor" then some "SERVIDORES"
      else match findSerie normalized.toList with
      | none => none
      | some serie =>
        if strContains normalized "informatica" then
          if serie = '1' then some "TIN I" else if serie = '2' then some "TIN II"
          else some "TIN III"
        else if strContains normalized "automacao" then
          if serie = '1' then some "TAI I" else if serie = '2' then some "TAI II"
          else some "TAI III"
        else if strContains normalized "seguranca" && strContains normalized "trabalho" then
          if serie = '1' then some "TST I" else if serie = '2' then some "TST II"
          else some "TST III"
        else none

/-! ## Spreadsheet cells (`as_clean_text`, `parse_positive_int`)

A worksheet cell as `openpyxl` hands it to `app.py`: empty, text, an
integer, or a date.  (A `datetime` cell in the restore path is taken to
its `.date()` by both `isinstance` branches, so one date constructor
models both; non-integer numeric cells are not modelled.)
-/

/-- A spreadsheet cell value. -/
inductive Cell where
  | empty : Cell
  | text : String → Cell
  | num : Int → Cell
  | dateCell : Nat → Cell
deriving DecidableEq, Repr

/-- `as_clean_text` from `app.py`: `"" if value is None else str(value).strip()`. -/
def as_clean_text : Cell → String
  | .empty => ""
  | .text s => pyStrip s
  | .num n => toString n
  | .dateCell d => isoformat d

/-- A decimal literal accepted by Python `float(...)`: optional sign, digits
with at most one dot, at least one digit.  Returns numerator and (positive
power-of-ten) denominator.  (Exponent notation and the special floats are
not modelled; `app.py` feeds this only spreadsheet headcount cells.) -/
def parseDecimal (cs : List Char) : Option (Int × Int) :=
  let core := fun (body : List Char) (sign : Int) =>
    match splitChar '.' body with
    | [intPart] =>
      if isDigitChars intPart then
        some (sign * (digitsToNat intPart : Int), (1 : Int))
      else none
    | [intPart, fracPart] =>
      if (intPart ≠ [] || fracPart ≠ []) && intPart.all Char.isDigit
          && fracPart.all Char.isDigit then
        some (sign * ((digitsToNat intPart * 10 ^ fracPart.length
                + digitsToNat fracPart : Nat) : Int),
              ((10 ^ fracPart.length : Nat) : Int))
      else none
    | _ => none
  match cs with
  | '+' :: body => core body 1
  | '-' :: body => core body (-1)
  | body => core body 1

/-- Python `round()` (round-half-to-even) of the fraction `num / den`,
`den > 0`. -/
def roundHalfEven (num den : Int) : Int :=
  let q := Int.fdiv num den
  let r := num - q * den
  if 2 * r < den then q
  else if den < 2 * r then q + 1
  else if q % 2 = 0 then q else q + 1

/-- `parse_positive_int` from `app.py`: clean the cell to text, turn decimal
commas into dots, parse as a number, round, clamp to non-negative; any
failure yields 0. -/
def parse_positive_int (value : Cell) : Nat :=
  let text := replaceChar ',' '.' (as_clean_text value)
  if text = "" then 0
  else match parseDecimal text.toList with
  | some p => (max 0 (roundHalfEven p.1 p.2)).toNat
  | none => 0

/-! ## Store rows

The three persistent tables of `app.py` (`alunos`, `respostas`,
`quadro_importado`), minus the generated id and timestamp columns, which
no claim concerns.  `data` is the date ordinal standing for the stored ISO
string.
-/

/-- A row of the `alunos` table. -/
structure Aluno where
  matricula : String
  nome : String
  turma : String
deriving DecidableEq, Repr

/-- A row of the `respostas` table (`UNIQUE(matricula, data_almoco)`). -/
structure Resposta where
  nome : String
  matricula : String
  turma : String
  data : Nat
  intencao : String
deriving DecidableEq, Repr

/-- A row of the `quadro_importado` table (`PRIMARY KEY (turma, data_almoco)`). -/
structure QuadroRow where
  turma : String
  data : Nat
  sim : Int
deriving DecidableEq, Repr

/-- The `UNIQUE(matricula, data_almoco)` constraint of `respostas`. -/
def respostasUnique (store : List Resposta) : Prop :=
  store.Pairwise fun r s => ¬(r.matricula = s.matricula ∧ r.data = s.data)

/-- The `PRIMARY KEY (turma, data_almoco)` constraint of `quadro_importado`. -/
def quadroUnique (store : List QuadroRow) : Prop :=
  store.Pairwise fun r s => ¬(r.turma = s.turma ∧ r.data = s.data)

/-! ## Weekly aggregation engine (`build_quadro_semana`)

`build_quadro_semana(conn, segunda, sexta)` first runs

  SELECT turma, data_almoco, SUM(CASE WHEN intencao = 'SIM' THEN 1 ELSE 0 END)
  FROM respostas WHERE data_almoco BETWEEN segunda AND sexta
  GROUP BY turma, data_almoco

and writes each group's sum into `turma_semana[turma][dia]`, where `dia` is
found by the explicit `week_map` lookup (the five ISO strings
`segunda .. segunda+4`).  Since the group rows have pairwise-distinct
`(turma, data)` keys and distinct dates map to distinct `dia` slots, the
cell for a canonical class `t` and weekday index `i < 5` ends up holding
exactly the number of `SIM` rows with `turma = t` and `data = segunda + i`
(groups absent or with sum 0 leave the initialized 0).  `respCell` is that
per-cell meaning.  The second loop then folds the in-range
`quadro_importado` rows into the same cell with
`max(cell, max(0, int(sim)))`; `quadroCell` is the per-cell restriction of
that loop (rows touching other cells leave this one unchanged).
-/

/-- The response contribution to the cell of class `t`, date `d`: the number
of stored `SIM` responses for that class on that date. -/
def respCell (respostas : List Resposta) (t : String) (d : Nat) : Nat :=
  (respostas.filter fun r => r.turma = t && r.data = d && r.intencao = "SIM").length

/-- `max(0, int(row["sim"] or 0))` from the import loop. -/
def clampSim (sim : Int) : Nat := (max 0 sim).toNat

/-- The reconciled cell of `build_quadro_semana` for canonical class `t` and
weekday index `i < 5` of the week starting at `segunda`. -/
def quadroCell (respostas : List Resposta) (quadro : List QuadroRow)
    (segunda : Nat) (t : String) (i : Nat) : Nat :=
  quadro.foldl
    (fun acc row =>
      if row.turma = t && row.data = segunda + i then max acc (clampSim row.sim)
      else acc)
    (respCell respostas t (segunda + i))

/-! ## Submission (`enviar`)

The `/enviar` handler, from form decoding to the store writes.  The
ambient `date.today()` is passed in as `today`.  Each redirect-with-error
of the source (which happens before any store write) is an
`Except.error` carrying the source's message; success returns the two
updated stores.
-/

/-- The day-token parsing of `enviar`: each raw field has `;` and spaces
turned into commas, is split on commas, each piece stripped and lowercased,
empty pieces dropped; finally duplicates are removed keeping the first
occurrence (`dict.fromkeys`). -/
def parseDias (diasRaw : List String) : List String :=
  let tokens := diasRaw.flatMap fun raw =>
    (pySplit ',' (replaceChar ' ' ',' (replaceChar ';' ',' raw))).filterMap fun item =>
      let t := pyStrip item
      if t = "" then none else some (pyLower t)
  tokens.foldl (fun acc t => if t ∈ acc then acc else acc ++ [t]) []

/-- The derived submitter identifier: `f"AUTO::{turma}::{nome}".upper()`. -/
def matriculaOf (turma nome : String) : String :=
  pyUpper ("AUTO::" ++ turma ++ "::" ++ nome)

/-- The `ON CONFLICT(matricula) DO UPDATE` upsert into `alunos`: replace the
(unique) row with the same key, or append. -/
def upsertAluno (row : Aluno) : List Aluno → List Aluno
  | [] => [row]
  | a :: rest =>
    if a.matricula = row.matricula then row :: rest
    else a :: upsertAluno row rest

/-- The `ON CONFLICT(matricula, data_almoco) DO UPDATE` upsert into
`respostas`. -/
def upsertResposta (row : Resposta) : List Resposta → List Resposta
  | [] => [row]
  | r :: rest =>
    if r.matricula = row.matricula && r.data = row.data then row :: rest
    else r :: upsertResposta row rest

/-- The five `(dia, date)` pairs of `datas_semana`, in the dict's insertion
order. -/
def datasSemana (segunda : Nat) : List (String × Nat) :=
  [("seg", segunda), ("ter", segunda + 1), ("qua", segunda + 2),
   ("qui", segunda + 3), ("sex", segunda + 4)]

/-- The `/enviar` handler. -/
def enviar (alunos : List Aluno) (respostas : List Resposta)
    (nomeRaw turmaRaw dataRaw : String) (diasRaw : List String) (today : Nat) :
    Except String (List Aluno × List Resposta) :=
  let nome := pyStrip nomeRaw
  let turma := pyStrip turmaRaw
  let dataReferencia := pyStrip dataRaw
  let diasMarcados := parseDias diasRaw
  if nome = "" then .error "Informe seu nome."
  else if turma ∉ TURMAS then .error "Selecione uma turma válida."
  else
    let matricula := matriculaOf turma nome
    if diasMarcados = [] then .error "Marque pelo menos um dia da semana."
    else if diasMarcados.any (fun item => item ∉ DIAS_SEMANA) then
      .error "Seleção de dias inválida."
    else
      match (if dataReferencia ≠ "" then parse_iso_date dataReferencia else some today) with
      | none => .error "Informe uma data válida."
      | some dataRef =>
        let segunda := week_start dataRef
        let alunosNew := upsertAluno ⟨matricula, nome, turma⟩ alunos
        let respostasNew := (datasSemana segunda).foldl
          (fun st p =>
            upsertResposta
              ⟨nome, matricula, turma, p.2,
                if p.1 ∈ diasMarcados then "SIM" else "NAO"⟩ st)
          respostas
        .ok (alunosNew, respostasNew)

/-! ## Bulk headcount import (`importar_quadro_semanal`)

The `/admin/importar_quadro` handler from the point where the worksheet
has been read into `rows` (a list of cell lists).  Each early
redirect-with-error happens before any store write; the spec's taxonomy
names them `ImportParseFailure` (empty file), `HeaderNotFound`,
"no valid class found" and `ZeroTotalGuard`.
-/

/-- The errors of the bulk headcount import, one per redirect message of the
source: `emptyFile` = "XLSX do quadro semanal está vazio.",
`headerNotFound` = "Cabeçalho não encontrado...", `emptyImport` =
"Nenhuma turma válida encontrada...", `zeroTotalGuard` = "Arquivo importado
resultou em total zero...". -/
inductive QuadroImportError where
  | emptyFile : QuadroImportError
  | headerNotFound : QuadroImportError
  | emptyImport : QuadroImportError
  | zeroTotalGuard : QuadroImportError
deriving DecidableEq, Repr

/-- The required header tokens of the weekly headcount sheet. -/
def required_cols : List String := ["turma", "seg", "ter", "qua", "qui", "sex"]

/-- One worksheet row, each cell cleaned and normalized
(`[normalize_header(as_clean_text(col)) for col in row]`). -/
def normalizeRow (row : List Cell) : List String :=
  row.map fun c => normalize_header (as_clean_text c)

/-- A row qualifies as the header row when its normalized cells contain all
six required tokens. -/
def isHeaderRow (row : List Cell) : Bool :=
  required_cols.all fun col => col ∈ normalizeRow row

/-- The header search of `importar_quadro_semanal`: the first row of
`rows[:15]` whose normalized cells contain all required tokens, together
with its index and normalized form. -/
def findHeader : Nat → List (List Cell) → Option (Nat × List String)
  | _, [] => none
  | fuel, row :: rest =>
    match fuel with
    | 0 => none
    | fuelLeft + 1 =>
      if isHeaderRow row then some (0, normalizeRow row)
      else match findHeader fuelLeft rest with
      | some p => some (p.1 + 1, p.2)
      | none => none

/-- `values[i] if i < len(values) else default`, cleaned to text
(out-of-range and `None` both clean to `""`). -/
def cellTextAt (values : List Cell) (i : Nat) : String :=
  as_clean_text (values.getD i Cell.empty)

/-- The five weekday counts of one import row. -/
structure Linha where
  seg : Nat
  ter : Nat
  qua : Nat
  qui : Nat
  sex : Nat
deriving DecidableEq, Repr

/-- Field-wise sum of two `Linha`s (the duplicate-class accumulation of
the bulk-import loop). -/
def addDias (a b : Linha) : Linha :=
  ⟨a.seg + b.seg, a.ter + b.ter, a.qua + b.qua, a.qui + b.qui, a.sex + b.sex⟩

/-- Grand total of one `Linha`. -/
def Linha.total (l : Linha) : Nat := l.seg + l.ter + l.qua + l.qui + l.sex

/-- Column indices of the six required tokens in the located header
(`header.index(col)`: first occurrence). -/
structure ColIndex where
  turma : Nat
  seg : Nat
  ter : Nat
  qua : Nat
  qui : Nat
  sex : Nat
deriving Repr

/-- Build the `col_index` map from the normalized header row. -/
def colIndexOf (header : List String) : ColIndex :=
  ⟨header.indexOf "turma", header.indexOf "seg", header.indexOf "ter",
   header.indexOf "qua", header.indexOf "qui", header.indexOf "sex"⟩

/-- One data row of the import loop: resolve the class label (with the
bare-number shift and the `total`-row skip) and parse the five weekday
cells; `none` when the row is skipped. -/
def parseQuadroRow (cols : ColIndex) (values : List Cell) : Option (String × Linha) :=
  let turmaRaw0 := cellTextAt values cols.turma
  let turmaRaw :=
    if pyIsDigit turmaRaw0 && cols.turma + 1 < values.length then
      cellTextAt values (cols.turma + 1)
    else turmaRaw0
  if turmaRaw = "" then none
  else if normalize_header turmaRaw = "total" then none
  else match map_turma_value turmaRaw with
  | none => none
  | some turma =>
    some (turma,
      ⟨parse_positive_int (values.getD cols.seg (Cell.num 0)),
       parse_positive_int (values.getD cols.ter (Cell.num 0)),
       parse_positive_int (values.getD cols.qua (Cell.num 0)),
       parse_positive_int (values.getD cols.qui (Cell.num 0)),
       parse_positive_int (values.getD cols.sex (Cell.num 0))⟩)

/-- Insert one resolved row into the per-class dict: a new class is appended,
an existing class has its weekday values summed in place. -/
def addLinha (acc : List (String × Linha)) (t : String) (l : Linha) :
    List (String × Linha) :=
  match acc with
  | [] => [(t, l)]
  | (k, v) :: rest =>
    if k = t then (k, addDias v l) :: rest
    else (k, v) :: addLinha rest t l

/-- The per-class map built from the data rows below the header
(`quadro_import` in the source). -/
def buildQuadroImport (cols : ColIndex) (dataRows : List (List Cell)) :
    List (String × Linha) :=
  (dataRows.filterMap (parseQuadroRow cols)).foldl
    (fun acc p => addLinha acc p.1 p.2) []

/-- `total_importado`: the grand total across all cells of all resolved
classes. -/
def totalImportado (m : List (String × Linha)) : Nat :=
  (m.map fun p => p.2.total).sum

/-- The `ON CONFLICT(turma, data_almoco) DO UPDATE` upsert into
`quadro_importado`. -/
def upsertQuadro (row : QuadroRow) : List QuadroRow → List QuadroRow
  | [] => [row]
  | r :: rest =>
    if r.turma = row.turma && r.data = row.data then row :: rest
    else r :: upsertQuadro row rest

/-- The write phase of the import: for each resolved class, upsert its five
weekday values at the dates of the target week. -/
def applyQuadroImport (segunda : Nat) (m : List (String × Linha))
    (store : List QuadroRow) : List QuadroRow :=
  m.foldl
    (fun st p =>
      (datasSemana segunda).foldl
        (fun st2 q =>
          upsertQuadro
            ⟨p.1, q.2,
              (if q.1 = "seg" then p.2.seg else if q.1 = "ter" then p.2.ter
               else if q.1 = "qua" then p.2.qua else if q.1 = "qui" then p.2.qui
               else p.2.sex : Nat)⟩ st2)
        st)
    store

/-- `importar_quadro_semanal` from the decoded worksheet rows on: locate the
header among the first 15 rows, build the per-class map, reject empty or
all-zero imports, otherwise upsert the week. -/
def importar_quadro (rows : List (List Cell)) (segunda : Nat)
    (store : List QuadroRow) : Except QuadroImportError (List QuadroRow) :=
  if rows = [] then .error .emptyFile
  else match findHeader 15 rows with
  | none => .error .headerNotFound
  | some (idx, header) =>
    let cols := colIndexOf header
    let quadroImport := buildQuadroImport cols (rows.drop (idx + 1))
    if quadroImport = [] then .error .emptyImport
    else if totalImportado quadroImport = 0 then .error .zeroTotalGuard
    else .ok (applyQuadroImport segunda quadroImport store)

/-! ## Backup restore (`restaurar_backup_quadro`)

The `/admin/restaurar_backup` handler from the sorted (newest-first) list
of archive files on.  An archive is modelled by the contents of its
`quadro_importado` sheet: `none` when the workbook fails to load or has no
such sheet, otherwise the list of rows.  Selection: the first archive
whose sheet has the required header and yields at least one row in the
target Monday-Friday window wins; its rows are upserted in order (replace,
not sum).  Both "no archive files" and "no archive with matching rows"
redirect with a no-backup message; the spec's taxonomy calls both
`NoBackupFound`.
-/

/-- An archive file, reduced to its `quadro_importado` sheet. -/
structure Backup where
  sheet : Option (List (List Cell))
deriving Repr

/-- The restore failure (both "Nenhum backup XLSX encontrado." and
"Nenhum backup possui linhas da semana selecionada."). -/
inductive RestoreError where
  | noBackupFound : RestoreError
deriving DecidableEq, Repr

/-- The date-cell decoding of the restore loop: a native date cell is taken
as is, anything else is cleaned to text and parsed as an ISO date. -/
def backupRowDate (c : Cell) : Option Nat :=
  match c with
  | .dateCell d => some d
  | other => parse_iso_date (as_clean_text other)

/-- One data row of an archive's sheet: resolve the class, decode the date,
keep the row only when the date lies in `[segunda, segunda + 4]`. -/
def parseBackupRow (segunda idxTurma idxData idxSim : Nat)
    (values : List Cell) : Option QuadroRow :=
  match map_turma_value (cellTextAt values idxTurma) with
  | none => none
  | some turma =>
    match backupRowDate (values.getD idxData Cell.empty) with
    | none => none
    | some d =>
      if d < segunda || segunda + 4 < d then none
      else some ⟨turma, d, (parse_positive_int (values.getD idxSim (Cell.num 0)) : Int)⟩

/-- The rows one archive contributes for the target week: empty when the
workbook did not load, the sheet is missing or empty, or the header lacks
`turma`/`data_almoco`/`sim`; otherwise the in-window resolved rows. -/
def candidateRows (segunda : Nat) (b : Backup) : List QuadroRow :=
  match b.sheet with
  | none => []
  | some [] => []
  | some (headerRow :: dataRows) =>
    let header := normalizeRow headerRow
    if ("turma" ∈ header && "data_almoco" ∈ header && "sim" ∈ header) then
      dataRows.filterMap
        (parseBackupRow segunda (header.indexOf "turma")
          (header.indexOf "data_almoco") (header.indexOf "sim"))
    else []

/-- The newest-first scan: the first archive with at least one candidate row. -/
def selectBackup (segunda : Nat) : List Backup → Option (List QuadroRow)
  | [] => none
  | b :: rest =>
    let rows := candidateRows segunda b
    if rows ≠ [] then some rows else selectBackup segunda rest

/-- `restaurar_backup_quadro` from the sorted archive list on: pick the first
archive with matching rows and upsert exactly those rows, in order. -/
def restaurar (backups : List Backup) (segunda : Nat) (store : List QuadroRow) :
    Except RestoreError (List QuadroRow) :=
  match selectBackup segunda backups with
  | none => .error .noBackupFound
  | some rows => .ok (rows.foldl (fun st r => upsertQuadro r st) store)

/-- Lookup in the `quadro_importado` store by its primary key. -/
def lookupQuadro (store : List QuadroRow) (t : String) (d : Nat) : Option Int :=
  (store.find? fun r => r.turma = t && r.data = d).map QuadroRow.sim

/-! ## Theorems -/

/-- C9: for every date `d`, `weekStart(d)` is the Monday on or before `d`
(a Monday with `0 ≤ d - weekStart(d) ≤ 6` days), and `weekStart` is
idempotent: `weekStart(weekStart(d)) = weekStart(d)`.  (`1 ≤ d` says `d` is
a real date: Python ordinals start at 1.) -/
theorem c9_week_start_monday_idempotent (d : Nat) (hd : 1 ≤ d) :
    pyWeekday (week_start d) = 0 ∧ week_start d ≤ d ∧ d - week_start d ≤ 6 ∧
      week_start (week_start d) = week_start d := by
  obtain ⟨q, hq⟩ : ∃ q, 7 * q + (d - 1) % 7 = d - 1 :=
    ⟨(d - 1) / 7, Nat.div_add_mod (d - 1) 7⟩
  have hlt : (d - 1) % 7 < 7 := Nat.mod_lt _ (by omega)
  have h1 : week_start d - 1 = 7 * q := by
    unfold week_start pyWeekday; omega
  have h0 : pyWeekday (week_start d) = 0 := by
    unfold pyWeekday; rw [h1]; exact Nat.mul_mod_right 7 q
  refine ⟨h0, ?_, ?_, ?_⟩
  · unfold week_start pyWeekday; omega
  · unfold week_start pyWeekday; omega
  · calc week_start (week_start d)
        = week_start d - pyWeekday (week_start d) := rfl
      _ = week_start d := by rw [h0]; exact Nat.sub_zero _

/-- Witness for C9 at the concrete date 2024-05-15 (ordinal 739021). -/
theorem c9_witness :
    1 ≤ 739021 ∧
      (pyWeekday (week_start 739021) = 0 ∧ week_start 739021 ≤ 739021 ∧
        739021 - week_start 739021 ≤ 6 ∧
        week_start (week_start 739021) = week_start 739021) :=
  ⟨by decide, c9_week_start_monday_idempotent 739021 (by decide)⟩

/-- C7: the identity resolver is a deterministic total function (it is a
Lean function `String → Option String`, so determinism and totality hold by
construction); in particular "TÉCNICO EM INFORMÁTICA – 2" resolves to
"TIN II", "2 informatica" resolves to "TIN II", "SERVIDOR" resolves to the
staff pseudo-class "SERVIDORES", and "xyz" resolves to no-match. -/
theorem c7_map_turma_value_cases :
    map_turma_value "TÉCNICO EM INFORMÁTICA – 2" = some "TIN II" ∧
      map_turma_value "2 informatica" = some "TIN II" ∧
      map_turma_value "SERVIDOR" = some "SERVIDORES" ∧
      map_turma_value "xyz" = none := by
  refine ⟨?_, ?_, ?_, ?_⟩ <;> rfl

/-- The per-cell import fold collapses to a `max` with the (unique) stored
headcount row for that class/date. -/
theorem foldl_max_eq_lookup (l : List QuadroRow) (t : String) (d : Nat) (b : Nat)
    (hu : quadroUnique l) :
    l.foldl
        (fun acc row =>
          if row.turma = t && row.data = d then max acc (clampSim row.sim) else acc) b
      = max b (match lookupQuadro l t d with
               | some v => clampSim v
               | none => 0) := by
  induction l generalizing b with
  | nil => simp [lookupQuadro]
  | cons r rest ih =>
    have hu2 : quadroUnique rest := (List.pairwise_cons.mp hu).2
    by_cases h : (r.turma = t && r.data = d) = true
    · have hk : r.turma = t ∧ r.data = d := by
        simpa using h
      have hnone : rest.find? (fun row => row.turma = t && row.data = d) = none := by
        apply List.find?_eq_none.mpr
        intro s hs
        have hconf := (List.pairwise_cons.mp hu).1 s hs
        simp only [Bool.and_eq_true, decide_eq_true_eq]
        intro hc
        exact hconf ⟨hk.1.trans hc.1.symm, hk.2.trans hc.2.symm⟩
      simp only [List.foldl_cons, h, if_true]
      rw [ih _ hu2]
      simp [lookupQuadro, List.find?_cons, h, hnone]
    · simp only [List.foldl_cons, h, if_false]
      rw [ih _ hu2]
      simp [lookupQuadro, List.find?_cons, h]

/-- C1: for every week and every canonical class and weekday, the reconciled
cell of the weekly aggregation equals the maximum of (a) the number of
stored `SIM` responses for that class on that date and (b) the imported
headcount for that class/date clamped to non-negative; a cell with no data
from either source is 0 (the `max` of a zero count and a missing row). -/
theorem c1_reconciled_cell_is_max (respostas : List Resposta)
    (quadro : List QuadroRow) (segunda : Nat) (hq : quadroUnique quadro)
    (t : String) (ht : t ∈ TURMAS) (i : Nat) (hi : i < 5) :
    quadroCell respostas quadro segunda t i =
      max (respCell respostas t (segunda + i))
        (match lookupQuadro quadro t (segunda + i) with
         | some v => clampSim v
         | none => 0) :=
  foldl_max_eq_lookup quadro t (segunda + i) _ hq

/-- Witness for C1: one response and a larger imported headcount for
`TIN I` on the Monday of the week starting at ordinal 100. -/
theorem c1_witness :
    quadroUnique [⟨"TIN I", 100, 5⟩] ∧ "TIN I" ∈ TURMAS ∧ 0 < 5 ∧
      quadroCell [⟨"Ana", "M1", "TIN I", 100, "SIM"⟩] [⟨"TIN I", 100, 5⟩] 100 "TIN I" 0 =
        max (respCell [⟨"Ana", "M1", "TIN I", 100, "SIM"⟩] "TIN I" (100 + 0))
          (match lookupQuadro [⟨"TIN I", 100, 5⟩] "TIN I" (100 + 0) with
           | some v => clampSim v
           | none => 0) :=
  ⟨by simp [quadroUnique], by decide, by decide,
    c1_reconciled_cell_is_max [⟨"Ana", "M1", "TIN I", 100, "SIM"⟩] [⟨"TIN I", 100, 5⟩]
      100 (by simp [quadroUnique]) "TIN I" (by decide) 0 (by decide)⟩

/-- C2: a single `respostas` row, or a single `quadro_importado` row, whose
date is not one of the five dates Monday..Friday of the requested week
contributes nothing to any cell of the weekly grid: removing just that row
— wherever it sits in its store, the other store arbitrary and untouched —
leaves every cell unchanged.  (ISO date strings and ordinals are in
bijection, so "date string not exactly one of the five ISO dates" is "date
not one of the five ordinals".) -/
theorem c2_stray_dates_never_leak (segunda : Nat) (t : String) (i : Nat)
    (ht : t ∈ TURMAS) (hi : i < 5) :
    (∀ (resp1 resp2 : List Resposta) (r : Resposta) (quadro : List QuadroRow),
        (∀ j, j < 5 → r.data ≠ segunda + j) →
        quadroCell (resp1 ++ r :: resp2) quadro segunda t i
          = quadroCell (resp1 ++ resp2) quadro segunda t i)
    ∧ (∀ (respostas : List Resposta) (quad1 quad2 : List QuadroRow)
        (q : QuadroRow),
        (∀ j, j < 5 → q.data ≠ segunda + j) →
        quadroCell respostas (quad1 ++ q :: quad2) segunda t i
          = quadroCell respostas (quad1 ++ quad2) segunda t i) := by
  constructor
  · intro resp1 resp2 r quadro hr
    have hfalse :
        (r.turma = t && r.data = segunda + i && r.intencao = "SIM") = false := by
      simp only [Bool.and_eq_false_iff, decide_eq_false_iff_not]
      left; right; exact hr i hi
    have hrcell :
        respCell (resp1 ++ r :: resp2) t (segunda + i) =
          respCell (resp1 ++ resp2) t (segunda + i) := by
      unfold respCell
      simp [List.filter_append, List.filter_cons, hfalse]
    unfold quadroCell
    rw [hrcell]
  · intro respostas quad1 quad2 q hqd
    have hprop : ¬(q.turma = t ∧ q.data = segunda + i) := by
      intro hc; exact hqd i hi hc.2
    unfold quadroCell
    simp [List.foldl_append, List.foldl_cons, hprop]

/-- Witness for C2: a lone Saturday response row (with a Monday headcount
row present) does not change the Monday cell, and a lone Saturday headcount
row (with a Monday response present) does not either. -/
theorem c2_witness :
    "TIN I" ∈ TURMAS ∧ 0 < 5 ∧ (∀ j, j < 5 → (105 : Nat) ≠ 100 + j) ∧
      quadroCell ([] ++ (⟨"Ana", "M1", "TIN I", 105, "SIM"⟩ : Resposta) :: [])
          [⟨"TIN I", 100, 7⟩] 100 "TIN I" 0 =
        quadroCell ([] ++ []) [⟨"TIN I", 100, 7⟩] 100 "TIN I" 0 ∧
      quadroCell [⟨"Ana", "M1", "TIN I", 100, "SIM"⟩]
          ([] ++ (⟨"TIN I", 105, 9⟩ : QuadroRow) :: []) 100 "TIN I" 0 =
        quadroCell [⟨"Ana", "M1", "TIN I", 100, "SIM"⟩] ([] ++ []) 100 "TIN I" 0 :=
  ⟨by decide, by decide, by decide,
    (c2_stray_dates_never_leak 100 "TIN I" 0 (by decide) (by decide)).1
      [] [] ⟨"Ana", "M1", "TIN I", 105, "SIM"⟩ [⟨"TIN I", 100, 7⟩] (by decide),
    (c2_stray_dates_never_leak 100 "TIN I" 0 (by decide) (by decide)).2
      [⟨"Ana", "M1", "TIN I", 100, "SIM"⟩] [] [] ⟨"TIN I", 105, 9⟩ (by decide)⟩

/-! ### Upsert lemmas for the submission path -/

/-- The `matricula TEXT PRIMARY KEY` constraint of `alunos`. -/
def alunosUnique (store : List Aluno) : Prop :=
  store.Pairwise fun a b => a.matricula ≠ b.matricula

/-- Filtering an upserted `respostas` store by the upserted row's key yields
exactly that row. -/
theorem upsertResposta_filter_key (row : Resposta) (st : List Resposta)
    (hu : respostasUnique st) :
    (upsertResposta row st).filter
        (fun r => r.matricula = row.matricula && r.data = row.data) = [row] := by
  induction st with
  | nil => simp [upsertResposta]
  | cons a rest ih =>
    obtain ⟨hconf, hu2⟩ := List.pairwise_cons.mp hu
    by_cases h : (a.matricula = row.matricula && a.data = row.data) = true
    · have hk : a.matricula = row.matricula ∧ a.data = row.data := by simpa using h
      have hnil : rest.filter
          (fun r => r.matricula = row.matricula && r.data = row.data) = [] := by
        rw [List.filter_eq_nil_iff]
        intro s hs
        simp only [Bool.and_eq_true, decide_eq_true_eq, not_and]
        intro h1 h2
        exact hconf s hs ⟨hk.1.trans h1.symm, hk.2.trans h2.symm⟩
      simp [upsertResposta, h, List.filter_cons, hnil]
    · simp [upsertResposta, h, List.filter_cons, ih hu2]

/-- Upserting a row whose key fails a key-determined predicate does not
change the predicate's filter. -/
theorem upsertResposta_filter_of_false (row : Resposta) (st : List Resposta)
    (p : Resposta → Bool)
    (hp : ∀ r s : Resposta, r.matricula = s.matricula → r.data = s.data → p r = p s)
    (hrow : p row = false) :
    (upsertResposta row st).filter p = st.filter p := by
  induction st with
  | nil => simp [upsertResposta, hrow]
  | cons a rest ih =>
    by_cases h : (a.matricula = row.matricula && a.data = row.data) = true
    · have hk : a.matricula = row.matricula ∧ a.data = row.data := by simpa using h
      have hpa : p a = false := (hp a row hk.1 hk.2).trans hrow
      simp [upsertResposta, h, List.filter_cons, hpa, hrow]
    · simp [upsertResposta, h, List.filter_cons, ih]

/-- Membership after an upsert: the new row or an old one. -/
theorem mem_upsertResposta {x row : Resposta} {st : List Resposta}
    (hx : x ∈ upsertResposta row st) : x = row ∨ x ∈ st := by
  induction st with
  | nil => simpa [upsertResposta] using hx
  | cons a rest ih =>
    unfold upsertResposta at hx
    by_cases h : (a.matricula = row.matricula && a.data = row.data) = true
    · rw [if_pos h] at hx
      rcases List.mem_cons.mp hx with h1 | h2
      · exact .inl h1
      · exact .inr (List.mem_cons_of_mem a h2)
    · rw [if_neg h] at hx
      rcases List.mem_cons.mp hx with h1 | h2
      · exact .inr (h1 ▸ List.mem_cons_self a rest)
      · rcases ih h2 with h3 | h4
        · exact .inl h3
        · exact .inr (List.mem_cons_of_mem a h4)

/-- Upserting preserves the `UNIQUE(matricula, data_almoco)` invariant. -/
theorem upsertResposta_unique (row : Resposta) (st : List Resposta)
    (hu : respostasUnique st) : respostasUnique (upsertResposta row st) := by
  induction st with
  | nil =>
    unfold respostasUnique upsertResposta
    simp
  | cons a rest ih =>
    obtain ⟨hconf, hu2⟩ := List.pairwise_cons.mp hu
    by_cases h : (a.matricula = row.matricula && a.data = row.data) = true
    · have hk : a.matricula = row.matricula ∧ a.data = row.data := by simpa using h
      have heq : upsertResposta row (a :: rest) = row :: rest := by
        simp [upsertResposta, h]
      unfold respostasUnique
      rw [heq]
      refine List.pairwise_cons.mpr ⟨?_, hu2⟩
      intro s hs hc
      exact hconf s hs ⟨hk.1.trans hc.1, hk.2.trans hc.2⟩
    · have heq : upsertResposta row (a :: rest) = a :: upsertResposta row rest := by
        simp [upsertResposta, h]
      unfold respostasUnique
      rw [heq]
      refine List.pairwise_cons.mpr ⟨?_, ih hu2⟩
      intro x hx
      rcases mem_upsertResposta hx with rfl | hmem
      · simpa using h
      · exact hconf x hmem

/-- Folding a list of upserts with pairwise-distinct keys: the filter by one
key yields the (single) folded row with that key, or leaves the store's
filter unchanged when no folded row has the key. -/
theorem foldl_upsertResposta_filter (rows : List Resposta) (st : List Resposta)
    (hu : respostasUnique st) (m : String) (d : Nat)
    (hkeys : rows.Pairwise fun a b => ¬(a.matricula = b.matricula ∧ a.data = b.data)) :
    (rows.foldl (fun s r => upsertResposta r s) st).filter
        (fun r => r.matricula = m && r.data = d)
      = match rows.find? (fun r => r.matricula = m && r.data = d) with
        | some row => [row]
        | none => st.filter (fun r => r.matricula = m && r.data = d) := by
  induction rows generalizing st with
  | nil => simp
  | cons r rest ih =>
    obtain ⟨hconf, hk2⟩ := List.pairwise_cons.mp hkeys
    have hu2 : respostasUnique (upsertResposta r st) := upsertResposta_unique r st hu
    by_cases h : (r.matricula = m && r.data = d) = true
    · have hkey : r.matricula = m ∧ r.data = d := by simpa using h
      obtain ⟨h1, h2⟩ := hkey
      subst h1; subst h2
      have hnone : rest.find? (fun x => x.matricula = r.matricula && x.data = r.data) = none := by
        rw [List.find?_eq_none]
        intro s hs
        simp only [Bool.and_eq_true, decide_eq_true_eq, not_and]
        intro hc1 hc2
        exact hconf s hs ⟨hc1.symm, hc2.symm⟩
      rw [List.foldl_cons, ih _ hu2 hk2, hnone]
      simp [List.find?_cons, h, upsertResposta_filter_key r st hu]
    · have hfalse : (fun x : Resposta => x.matricula = m && x.data = d) r = false := by
        simpa using h
      rw [List.foldl_cons, ih _ hu2 hk2]
      have hfilter := upsertResposta_filter_of_false r st
        (fun x => x.matricula = m && x.data = d)
        (fun a b hab1 hab2 => by simp [hab1, hab2]) hfalse
      simp [List.find?_cons, h, hfilter]

/-- Folding upserts whose keys all fail a key-determined predicate leaves the
predicate's filter unchanged. -/
theorem foldl_upsertResposta_filter_out (rows : List Resposta) (st : List Resposta)
    (p : Resposta → Bool)
    (hp : ∀ r s : Resposta, r.matricula = s.matricula → r.data = s.data → p r = p s)
    (hrows : ∀ r ∈ rows, p r = false) :
    (rows.foldl (fun s r => upsertResposta r s) st).filter p = st.filter p := by
  induction rows generalizing st with
  | nil => rfl
  | cons r rest ih =>
    rw [List.foldl_cons, ih _ (fun x hx => hrows x (by simp [hx]))]
    exact upsertResposta_filter_of_false r st p hp (hrows r (by simp))

/-- Filtering an upserted `alunos` store by the upserted key yields exactly
the new row. -/
theorem upsertAluno_filter_key (row : Aluno) (st : List Aluno)
    (hu : alunosUnique st) :
    (upsertAluno row st).filter (fun a => a.matricula = row.matricula) = [row] := by
  induction st with
  | nil => simp [upsertAluno]
  | cons a rest ih =>
    obtain ⟨hconf, hu2⟩ := List.pairwise_cons.mp hu
    by_cases h : a.matricula = row.matricula
    · have hnil : rest.filter (fun x => x.matricula = row.matricula) = [] := by
        rw [List.filter_eq_nil_iff]
        intro s hs
        simp only [decide_eq_true_eq]
        intro h1
        exact hconf s hs (h.trans h1.symm)
      simp [upsertAluno, h, List.filter_cons, hnil]
    · simp [upsertAluno, h, List.filter_cons, ih hu2]

/-- Upserting an `alunos` row fails a key-determined predicate: the filter is
unchanged. -/
theorem upsertAluno_filter_of_false (row : Aluno) (st : List Aluno)
    (p : Aluno → Bool)
    (hp : ∀ a b : Aluno, a.matricula = b.matricula → p a = p b)
    (hrow : p row = false) :
    (upsertAluno row st).filter p = st.filter p := by
  induction st with
  | nil => simp [upsertAluno, hrow]
  | cons a rest ih =>
    by_cases h : a.matricula = row.matricula
    · have hpa : p a = false := (hp a row h).trans hrow
      simp [upsertAluno, h, List.filter_cons, hpa, hrow]
    · simp [upsertAluno, h, List.filter_cons, ih]

/-- The five `respostas` rows written by a successful submission, in write
order. -/
def weekRows (nome m turma : String) (dias : List String) (segunda : Nat) :
    List Resposta :=
  (datasSemana segunda).map fun p =>
    ⟨nome, m, turma, p.2, if p.1 ∈ dias then "SIM" else "NAO"⟩

/-- The row a successful submission leaves for weekday index `i` of the
target week: attending exactly when that weekday was selected. -/
def expectedResposta (nome turma : String) (dias : List String)
    (segunda i : Nat) : Resposta :=
  ⟨nome, matriculaOf turma nome, turma, segunda + i,
    if DIAS_SEMANA.getD i "" ∈ dias then "SIM" else "NAO"⟩

/-- What a successful submission does to the two stores: it succeeds, the
five cells of the target week hold exactly the expected rows, and every row
outside the submitter's target week (other students, other weeks) is
untouched; the student row is upserted and other students are untouched. -/
def EnviarOk (alunos : List Aluno) (respostas : List Resposta)
    (nomeRaw turmaRaw dataRaw : String) (diasRaw : List String)
    (today dref : Nat) : Prop :=
  ∃ alunosNew respostasNew,
    enviar alunos respostas nomeRaw turmaRaw dataRaw diasRaw today
        = .ok (alunosNew, respostasNew)
    ∧ (∀ i, i < 5 →
        respostasNew.filter (fun r =>
            r.matricula = matriculaOf (pyStrip turmaRaw) (pyStrip nomeRaw) &&
              r.data = week_start dref + i)
          = [expectedResposta (pyStrip nomeRaw) (pyStrip turmaRaw)
              (parseDias diasRaw) (week_start dref) i])
    ∧ respostasNew.filter (fun r =>
          !(r.matricula = matriculaOf (pyStrip turmaRaw) (pyStrip nomeRaw) &&
            week_start dref ≤ r.data && r.data ≤ week_start dref + 4))
        = respostas.filter (fun r =>
          !(r.matricula = matriculaOf (pyStrip turmaRaw) (pyStrip nomeRaw) &&
            week_start dref ≤ r.data && r.data ≤ week_start dref + 4))
    ∧ alunosNew.filter (fun a =>
          a.matricula = matriculaOf (pyStrip turmaRaw) (pyStrip nomeRaw))
        = [⟨matriculaOf (pyStrip turmaRaw) (pyStrip nomeRaw),
            pyStrip nomeRaw, pyStrip turmaRaw⟩]
    ∧ alunosNew.filter (fun a =>
          !(a.matricula = matriculaOf (pyStrip turmaRaw) (pyStrip nomeRaw)))
        = alunos.filter (fun a =>
          !(a.matricula = matriculaOf (pyStrip turmaRaw) (pyStrip nomeRaw)))

/-- A valid submission (with resolved week reference `dref`) behaves as
`EnviarOk` describes.  Shared backbone of the C3 and C10 theorems. -/
theorem enviar_ok_characterization (alunos : List Aluno)
    (respostas : List Resposta) (nomeRaw turmaRaw dataRaw : String)
    (diasRaw : List String) (today dref : Nat)
    (hua : alunosUnique alunos) (hur : respostasUnique respostas)
    (hnome : ¬ pyStrip nomeRaw = "") (hturma : pyStrip turmaRaw ∈ TURMAS)
    (hdias : ¬ parseDias diasRaw = [])
    (hvalid : ∀ x ∈ parseDias diasRaw, x ∈ DIAS_SEMANA)
    (hdref : (if pyStrip dataRaw ≠ "" then parse_iso_date (pyStrip dataRaw)
              else some today) = some dref) :
    EnviarOk alunos respostas nomeRaw turmaRaw dataRaw diasRaw today dref := by
  have hany : ¬ ((parseDias diasRaw).any fun item =>
      decide (item ∉ DIAS_SEMANA)) = true := by
    simp only [List.any_eq_true, decide_eq_true_eq, not_exists]
    intro x
    simp only [not_and, not_not]
    exact hvalid x
  unfold EnviarOk enviar
  rw [if_neg hnome, if_neg (not_not_intro hturma), if_neg hdias, if_neg hany, hdref]
  set nome := pyStrip nomeRaw with hnomedef
  set turma := pyStrip turmaRaw with hturmadef
  set dias := parseDias diasRaw with hdiasdef
  set m := matriculaOf turma nome with hmdef
  set segunda := week_start dref with hsegdef
  have hconv :
      (datasSemana segunda).foldl
          (fun st p =>
            upsertResposta ⟨nome, m, turma, p.2,
              if p.1 ∈ dias then "SIM" else "NAO"⟩ st) respostas
        = (weekRows nome m turma dias segunda).foldl
            (fun s r => upsertResposta r s) respostas := by
    rw [weekRows, List.foldl_map]
  have hkeys : (weekRows nome m turma dias segunda).Pairwise
      (fun a b => ¬(a.matricula = b.matricula ∧ a.data = b.data)) := by
    simp [weekRows, datasSemana, List.pairwise_cons]
  refine ⟨_, _, rfl, ?_, ?_, ?_, ?_⟩
  · intro i hi
    rw [hconv, foldl_upsertResposta_filter _ _ hur m (segunda + i) hkeys]
    interval_cases i <;>
      simp [weekRows, datasSemana, List.find?_cons, expectedResposta, DIAS_SEMANA]
  · rw [hconv]
    apply foldl_upsertResposta_filter_out
    · intro r s h1 h2; simp [h1, h2]
    · intro r hr
      simp only [weekRows, datasSemana, List.map_cons, List.map_nil,
        List.mem_cons, List.not_mem_nil, or_false] at hr
      rcases hr with rfl | rfl | rfl | rfl | rfl <;> simp
  · simpa using upsertAluno_filter_key ⟨m, nome, turma⟩ alunos hua
  · apply upsertAluno_filter_of_false
    · intro a b h1; simp [h1]
    · simp

/-- C3: for every valid submission (non-empty name, canonical class,
non-empty valid day selection, parseable reference date), `enviar` upserts
the `alunos` row and then exactly five `respostas` rows — one per weekday
Monday..Friday of the target week — each marked `SIM` iff that weekday is
in the selected set; rows with any other key (other students, other weeks)
are untouched, so resubmitting for the same student and week rewrites all
five rows and nothing else (`EnviarOk` spells this out). -/
theorem c3_valid_submission_writes_week (alunos : List Aluno)
    (respostas : List Resposta) (nomeRaw turmaRaw dataRaw : String)
    (diasRaw : List String) (today dref : Nat)
    (hua : alunosUnique alunos) (hur : respostasUnique respostas)
    (hnome : pyStrip nomeRaw ≠ "") (hturma : pyStrip turmaRaw ∈ TURMAS)
    (hdias : parseDias diasRaw ≠ [])
    (hvalid : ∀ x ∈ parseDias diasRaw, x ∈ DIAS_SEMANA)
    (hne : pyStrip dataRaw ≠ "")
    (hparse : parse_iso_date (pyStrip dataRaw) = some dref) :
    EnviarOk alunos respostas nomeRaw turmaRaw dataRaw diasRaw today dref :=
  enviar_ok_characterization alunos respostas nomeRaw turmaRaw dataRaw diasRaw
    today dref hua hur hnome hturma hdias hvalid
    (by rw [if_pos hne]; exact hparse)

/-- Witness for C3: a fresh submission of "Ana", class TIN I, selecting
Monday and Tuesday of the week of 2024-05-15. -/
theorem c3_witness :
    parse_iso_date (pyStrip "2024-05-15") = some 739021 ∧
      EnviarOk [] [] "Ana" "TIN I" "2024-05-15" ["seg ter"] 1 739021 :=
  ⟨by rfl,
    c3_valid_submission_writes_week [] [] "Ana" "TIN I" "2024-05-15" ["seg ter"]
      1 739021 (by simp [alunosUnique]) (by simp [respostasUnique])
      (by decide) (by decide) (by decide) (by decide) (by decide) (by rfl)⟩

/-- C4: `enviar` fails with an `InvalidInput` redirect — before any store
write — whenever the stripped name is empty, the stripped class code is not
canonical, the parsed weekday selection is empty, or some parsed token is
not a canonical weekday code.  (The error result carries no stores: the
source redirects before opening the database.) -/
theorem c4_invalid_input_rejected (alunos : List Aluno)
    (respostas : List Resposta) (nomeRaw turmaRaw dataRaw : String)
    (diasRaw : List String) (today : Nat)
    (h : pyStrip nomeRaw = "" ∨ pyStrip turmaRaw ∉ TURMAS ∨
         parseDias diasRaw = [] ∨ ∃ x ∈ parseDias diasRaw, x ∉ DIAS_SEMANA) :
    ∃ msg, enviar alunos respostas nomeRaw turmaRaw dataRaw diasRaw today
        = .error msg ∧
      msg ∈ ["Informe seu nome.", "Selecione uma turma válida.",
             "Marque pelo menos um dia da semana.", "Seleção de dias inválida."] := by
  unfold enviar
  by_cases h1 : pyStrip nomeRaw = ""
  · rw [if_pos h1]; exact ⟨_, rfl, by simp⟩
  rw [if_neg h1]
  by_cases h2 : pyStrip turmaRaw ∉ TURMAS
  · rw [if_pos h2]; exact ⟨_, rfl, by simp⟩
  rw [if_neg h2]
  by_cases h3 : parseDias diasRaw = []
  · rw [if_pos h3]; exact ⟨_, rfl, by simp⟩
  rw [if_neg h3]
  by_cases h4 : ((parseDias diasRaw).any fun item => decide (item ∉ DIAS_SEMANA)) = true
  · rw [if_pos h4]; exact ⟨_, rfl, by simp⟩
  · exfalso
    rcases h with h | h | h | h
    · exact h1 h
    · exact h2 h
    · exact h3 h
    · obtain ⟨x, hx, hxd⟩ := h
      exact h4 (List.any_eq_true.mpr ⟨x, hx, by simpa using hxd⟩)

/-- Witness for C4: an empty name is rejected with the first message. -/
theorem c4_witness :
    (pyStrip "" = "" ∨ pyStrip "TIN I" ∉ TURMAS ∨ parseDias ["seg"] = [] ∨
        ∃ x ∈ parseDias ["seg"], x ∉ DIAS_SEMANA) ∧
      ∃ msg, enviar [] [] "" "TIN I" "" ["seg"] 1 = .error msg ∧
        msg ∈ ["Informe seu nome.", "Selecione uma turma válida.",
               "Marque pelo menos um dia da semana.", "Seleção de dias inválida."] :=
  ⟨Or.inl rfl, c4_invalid_input_rejected [] [] "" "TIN I" "" ["seg"] 1 (Or.inl rfl)⟩

/-- C10 (implicit): a non-empty reference date that does not parse as an ISO
`YYYY-MM-DD` date makes `enviar` fail with a user-visible error before any
store write, whereas an empty reference date silently defaults to the
current day (`today`) as the week reference — the success then targets the
week `week_start today`. -/
theorem c10_data_referencia_parsing (alunos : List Aluno)
    (respostas : List Resposta) (nomeRaw turmaRaw dataRaw : String)
    (diasRaw : List String) (today : Nat) :
    (pyStrip dataRaw ≠ "" → parse_iso_date (pyStrip dataRaw) = none →
      ∃ msg, enviar alunos respostas nomeRaw turmaRaw dataRaw diasRaw today
          = .error msg)
    ∧ (pyStrip dataRaw = "" →
        alunosUnique alunos → respostasUnique respostas →
        pyStrip nomeRaw ≠ "" → pyStrip turmaRaw ∈ TURMAS →
        parseDias diasRaw ≠ [] → (∀ x ∈ parseDias diasRaw, x ∈ DIAS_SEMANA) →
        EnviarOk alunos respostas nomeRaw turmaRaw dataRaw diasRaw today today) := by
  constructor
  · intro hne hnone
    unfold enviar
    by_cases h1 : pyStrip nomeRaw = ""
    · rw [if_pos h1]; exact ⟨_, rfl⟩
    rw [if_neg h1]
    by_cases h2 : pyStrip turmaRaw ∉ TURMAS
    · rw [if_pos h2]; exact ⟨_, rfl⟩
    rw [if_neg h2]
    by_cases h3 : parseDias diasRaw = []
    · rw [if_pos h3]; exact ⟨_, rfl⟩
    rw [if_neg h3]
    by_cases h4 : ((parseDias diasRaw).any fun item => decide (item ∉ DIAS_SEMANA)) = true
    · rw [if_pos h4]; exact ⟨_, rfl⟩
    rw [if_neg h4, if_pos hne, hnone]
    exact ⟨_, rfl⟩
  · intro hempty hua hur hnome hturma hdias hvalid
    exact enviar_ok_characterization alunos respostas nomeRaw turmaRaw dataRaw
      diasRaw today today hua hur hnome hturma hdias hvalid
      (by rw [if_neg (not_not_intro hempty)])

/-- Witness for C10: "2024-13-01" does not parse and the submission errors. -/
theorem c10_witness :
    pyStrip "2024-13-01" ≠ "" ∧ parse_iso_date (pyStrip "2024-13-01") = none ∧
      ∃ msg, enviar [] [] "Ana" "TIN I" "2024-13-01" ["seg"] 5 = .error msg :=
  ⟨by decide, by rfl,
    (c10_data_referencia_parsing [] [] "Ana" "TIN I" "2024-13-01" ["seg"] 5).1
      (by decide) (by rfl)⟩

/-! ### Header search and per-class summing lemmas for the bulk import -/

/-- The all-zero weekday record. -/
def zeroLinha : Linha := ⟨0, 0, 0, 0, 0⟩

/-- Lookup in the per-class import map (dict access by class code). -/
def lookupLinha (m : List (String × Linha)) (t : String) : Option Linha :=
  (m.find? fun p => p.1 = t).map Prod.snd

/-- The header search fails exactly when no row among the first `fuel` rows
qualifies. -/
theorem findHeader_none_iff (fuel : Nat) (rows : List (List Cell)) :
    findHeader fuel rows = none ↔
      ∀ row ∈ rows.take fuel, isHeaderRow row = false := by
  induction rows generalizing fuel with
  | nil => simp [findHeader]
  | cons row rest ih =>
    cases fuel with
    | zero => simp [findHeader]
    | succ f =>
      by_cases hh : isHeaderRow row = true
      · have hsome : findHeader (f + 1) (row :: rest) = some (0, normalizeRow row) := by
          simp [findHeader, hh]
        simp [hsome, List.take_succ_cons, hh]
      · have hfalse : isHeaderRow row = false := by simpa using hh
        have hstep : findHeader (f + 1) (row :: rest)
            = (match findHeader f rest with
               | some p => some (p.1 + 1, p.2)
               | none => none) := by
          simp [findHeader, hh]
        rw [hstep]
        cases hrec : findHeader f rest with
        | some p =>
          simp only [List.take_succ_cons, List.mem_cons]
          constructor
          · intro hc; exact absurd hc (by simp)
          · intro hall
            have hnone := (ih f).mpr fun x hx => hall x (Or.inr hx)
            rw [hrec] at hnone
            exact absurd hnone (by simp)
        | none =>
          simp only [List.take_succ_cons, List.mem_cons]
          constructor
          · intro _ x hx
            rcases hx with rfl | hx2
            · exact hfalse
            · exact (ih f).mp hrec x hx2
          · intro _; trivial

/-- When the header search succeeds it returns the first qualifying row of
the scanned prefix: its index, its normalized form, and the fact that all
earlier rows fail to qualify. -/
theorem findHeader_some_spec (fuel : Nat) (rows : List (List Cell))
    (idx : Nat) (header : List String)
    (h : findHeader fuel rows = some (idx, header)) :
    idx < fuel ∧ ∃ row, rows[idx]? = some row ∧ isHeaderRow row = true ∧
      header = normalizeRow row ∧
      ∀ j, j < idx → ∃ rowj, rows[j]? = some rowj ∧ isHeaderRow rowj = false := by
  induction rows generalizing fuel idx header with
  | nil => simp [findHeader] at h
  | cons row rest ih =>
    cases fuel with
    | zero => simp [findHeader] at h
    | succ f =>
      by_cases hh : isHeaderRow row = true
      · have hsome : findHeader (f + 1) (row :: rest) = some (0, normalizeRow row) := by
          simp [findHeader, hh]
        rw [hsome] at h
        have hpair : 0 = idx ∧ normalizeRow row = header := by
          simpa using h
        obtain ⟨hidx, hhd⟩ := hpair
        subst hidx; subst hhd
        exact ⟨by omega, row, by simp, hh, rfl, fun j hj => absurd hj (by omega)⟩
      · have hfalse : isHeaderRow row = false := by simpa using hh
        have hstep : findHeader (f + 1) (row :: rest)
            = (match findHeader f rest with
               | some p => some (p.1 + 1, p.2)
               | none => none) := by
          simp [findHeader, hh]
        rw [hstep] at h
        cases hrec : findHeader f rest with
        | none => rw [hrec] at h; simp at h
        | some p =>
          rw [hrec] at h
          have hpair : p.1 + 1 = idx ∧ p.2 = header := by simpa using h
          obtain ⟨hidx, hhd⟩ := hpair
          subst hidx; subst hhd
          obtain ⟨hlt, rowp, hget, hisp, hnorm, hprev⟩ := ih f p.1 p.2 hrec
          refine ⟨by omega, rowp, by simpa using hget, hisp, hnorm, ?_⟩
          intro j hj
          cases j with
          | zero => exact ⟨row, by simp, hfalse⟩
          | succ j2 =>
            obtain ⟨rowj, hg, hf2⟩ := hprev j2 (by omega)
            exact ⟨rowj, by simpa using hg, hf2⟩

/-- Looking up after inserting one resolved row: the inserted class gains
the field-wise sum, every other class is untouched. -/
theorem lookupLinha_addLinha (acc : List (String × Linha)) (t tq : String)
    (l : Linha) :
    lookupLinha (addLinha acc tq l) t =
      if t = tq then some (addDias ((lookupLinha acc tq).getD zeroLinha) l)
      else lookupLinha acc t := by
  induction acc with
  | nil =>
    by_cases h : t = tq
    · subst h; simp [addLinha, lookupLinha, addDias, zeroLinha]
    · have h2 : ¬ tq = t := fun hc => h hc.symm
      simp [addLinha, lookupLinha, h, h2]
  | cons kv rest ih =>
    obtain ⟨k, v⟩ := kv
    by_cases hk : k = tq
    · subst hk
      by_cases ht : t = k
      · subst ht; simp [addLinha, lookupLinha, List.find?_cons]
      · have h2 : ¬ k = t := fun hc => ht hc.symm
        simp [addLinha, lookupLinha, List.find?_cons, ht, h2]
    · by_cases ht : k = t
      · subst ht
        simp [addLinha, lookupLinha, List.find?_cons, hk]
      · have hstep : addLinha ((k, v) :: rest) tq l = (k, v) :: addLinha rest tq l := by
          simp [addLinha, hk]
        have hskip : ∀ (m : List (String × Linha)),
            lookupLinha ((k, v) :: m) t = lookupLinha m t := by
          intro m; simp [lookupLinha, List.find?_cons, ht]
        have hskip2 : lookupLinha ((k, v) :: rest) tq = lookupLinha rest tq := by
          simp [lookupLinha, List.find?_cons, hk]
        rw [hstep, hskip, hskip, hskip2, ih]

/-- Folding resolved rows into the per-class dict: class `t` ends up with
the field-wise sum of all its rows' values (on top of whatever the
accumulator already held). -/
theorem lookupLinha_foldl (pairs : List (String × Linha))
    (acc : List (String × Linha)) (t : String) :
    lookupLinha (pairs.foldl (fun a p => addLinha a p.1 p.2) acc) t =
      if lookupLinha acc t = none ∧ ((pairs.filter fun p => p.1 = t).map Prod.snd) = []
      then none
      else some (((pairs.filter fun p => p.1 = t).map Prod.snd).foldl addDias
                  ((lookupLinha acc t).getD zeroLinha)) := by
  induction pairs generalizing acc with
  | nil => cases h : lookupLinha acc t <;> simp [h]
  | cons p rest ih =>
    rw [List.foldl_cons, ih (addLinha acc p.1 p.2), lookupLinha_addLinha]
    by_cases heq : p.1 = t
    · have ht : t = p.1 := heq.symm
      rw [if_pos ht]
      have hfilter : ((p :: rest).filter fun q => q.1 = t)
          = p :: (rest.filter fun q => q.1 = t) := by
        simp [List.filter_cons, heq]
      rw [hfilter]
      subst ht
      simp [List.foldl_cons]
    · have ht : ¬ t = p.1 := fun hc => heq hc.symm
      rw [if_neg ht]
      have hfilter : ((p :: rest).filter fun q => q.1 = t)
          = rest.filter fun q => q.1 = t := by
        simp [List.filter_cons, heq]
      rw [hfilter]

/-- The per-class map of the bulk import holds, for each class, the
field-wise sum of all resolved rows labelled with that class (`none` when
no row resolves to it). -/
theorem buildQuadroImport_lookup (cols : ColIndex) (dataRows : List (List Cell))
    (t : String) :
    lookupLinha (buildQuadroImport cols dataRows) t =
      if (((dataRows.filterMap (parseQuadroRow cols)).filter fun p => p.1 = t).map
            Prod.snd) = []
      then none
      else some ((((dataRows.filterMap (parseQuadroRow cols)).filter
                    fun p => p.1 = t).map Prod.snd).foldl addDias zeroLinha) := by
  unfold buildQuadroImport
  rw [lookupLinha_foldl]
  by_cases h : (((dataRows.filterMap (parseQuadroRow cols)).filter
      fun p => p.1 = t).map Prod.snd) = []
  · simp [lookupLinha, h]
  · simp [lookupLinha, h]

/-- C5 (counterexample): a file whose header is found but in which no data
row resolves to a class has every parsed weekday cell equal to 0
(vacuously), yet the import is rejected with the "no valid class" error,
not `ZeroTotalGuard` — the claim's error attribution fails on such files. -/
theorem c5_counterexample :
    importar_quadro
        [[Cell.text "turma", Cell.text "seg", Cell.text "ter", Cell.text "qua",
          Cell.text "qui", Cell.text "sex"]] 1 []
      = .error .emptyImport ∧
      QuadroImportError.emptyImport ≠ QuadroImportError.zeroTotalGuard :=
  ⟨rfl, by decide⟩

/-- C5 (amended): for every import file with a located header in which at
least one data row resolves to a class and every parsed weekday cell is 0,
the bulk import is rejected with `ZeroTotalGuard`; the error return happens
before any store write, so the `quadro_importado` store is unchanged. -/
theorem c5_zero_total_guard (rows : List (List Cell)) (segunda : Nat)
    (store : List QuadroRow) (idx : Nat) (header : List String)
    (hne : rows ≠ []) (hheader : findHeader 15 rows = some (idx, header))
    (hresolved : buildQuadroImport (colIndexOf header) (rows.drop (idx + 1)) ≠ [])
    (hzero : ∀ p ∈ buildQuadroImport (colIndexOf header) (rows.drop (idx + 1)),
        p.2 = zeroLinha) :
    importar_quadro rows segunda store = .error .zeroTotalGuard := by
  have htotal : totalImportado
      (buildQuadroImport (colIndexOf header) (rows.drop (idx + 1))) = 0 := by
    unfold totalImportado
    apply List.sum_eq_zero
    intro x hx
    obtain ⟨p, hp, rfl⟩ := List.mem_map.mp hx
    rw [hzero p hp]
    rfl
  unfold importar_quadro
  rw [if_neg hne, hheader]
  simp [hresolved, htotal]

/-- Witness for C5: a header row plus one "TAI I" row of zeros is rejected
with `ZeroTotalGuard`. -/
theorem c5_witness :
    findHeader 15
        [[Cell.text "turma", Cell.text "seg", Cell.text "ter", Cell.text "qua",
          Cell.text "qui", Cell.text "sex"],
         [Cell.text "TAI I", Cell.num 0, Cell.num 0, Cell.num 0, Cell.num 0,
          Cell.num 0]]
      = some (0, ["turma", "seg", "ter", "qua", "qui", "sex"]) ∧
    importar_quadro
        [[Cell.text "turma", Cell.text "seg", Cell.text "ter", Cell.text "qua",
          Cell.text "qui", Cell.text "sex"],
         [Cell.text "TAI I", Cell.num 0, Cell.num 0, Cell.num 0, Cell.num 0,
          Cell.num 0]] 1 []
      = .error .zeroTotalGuard :=
  ⟨by rfl,
    c5_zero_total_guard
      [[Cell.text "turma", Cell.text "seg", Cell.text "ter", Cell.text "qua",
        Cell.text "qui", Cell.text "sex"],
       [Cell.text "TAI I", Cell.num 0, Cell.num 0, Cell.num 0, Cell.num 0,
        Cell.num 0]] 1 [] 0 ["turma", "seg", "ter", "qua", "qui", "sex"]
      (by decide) (by rfl) (by decide) (by decide)⟩

/-- C8 (counterexample): an empty file has no qualifying row among its first
15 rows, yet the import fails with the empty-file error, not
`HeaderNotFound` — the claim's error attribution fails on the empty file. -/
theorem c8_counterexample :
    importar_quadro [] 1 [] = .error .emptyFile ∧
      QuadroImportError.emptyFile ≠ QuadroImportError.headerNotFound :=
  ⟨rfl, by decide⟩

/-- C8 (amended): for every non-empty import file, the header search fails
(and the import is rejected with `HeaderNotFound`) exactly when no row of
the first 15 qualifies; when it succeeds it returns the first qualifying
row of that prefix; and the per-class map sums the weekday values of all
data rows resolving to the same class code. -/
theorem c8_header_first_match_and_duplicate_sum :
    (∀ (rows : List (List Cell)) (segunda : Nat) (store : List QuadroRow),
        rows ≠ [] → findHeader 15 rows = none →
        importar_quadro rows segunda store = .error .headerNotFound)
    ∧ (∀ (fuel : Nat) (rows : List (List Cell)),
        findHeader fuel rows = none ↔
          ∀ row ∈ rows.take fuel, isHeaderRow row = false)
    ∧ (∀ (fuel : Nat) (rows : List (List Cell)) (idx : Nat) (header : List String),
        findHeader fuel rows = some (idx, header) →
        idx < fuel ∧ ∃ row, rows[idx]? = some row ∧ isHeaderRow row = true ∧
          header = normalizeRow row ∧
          ∀ j, j < idx → ∃ rowj, rows[j]? = some rowj ∧ isHeaderRow rowj = false)
    ∧ (∀ (cols : ColIndex) (dataRows : List (List Cell)) (t : String),
        lookupLinha (buildQuadroImport cols dataRows) t =
          if (((dataRows.filterMap (parseQuadroRow cols)).filter
                fun p => p.1 = t).map Prod.snd) = []
          then none
          else some ((((dataRows.filterMap (parseQuadroRow cols)).filter
                        fun p => p.1 = t).map Prod.snd).foldl addDias zeroLinha)) := by
  refine ⟨?_, findHeader_none_iff, findHeader_some_spec, buildQuadroImport_lookup⟩
  intro rows segunda store hne hnone
  unfold importar_quadro
  rw [if_neg hne, hnone]

/-- Witness for C8: a one-row file without the tokens yields
`HeaderNotFound`, and two "TAI I" rows with seg=2 and seg=3 sum to seg=5. -/
theorem c8_witness :
    ([[Cell.text "x"]] : List (List Cell)) ≠ [] ∧
    findHeader 15 [[Cell.text "x"]] = none ∧
    importar_quadro [[Cell.text "x"]] 1 [] = .error .headerNotFound ∧
    lookupLinha
        (buildQuadroImport (colIndexOf ["turma", "seg", "ter", "qua", "qui", "sex"])
          [[Cell.text "TAI I", Cell.num 2, Cell.num 1, Cell.num 0, Cell.num 0,
            Cell.num 0],
           [Cell.text "TAI I", Cell.num 3, Cell.num 0, Cell.num 0, Cell.num 0,
            Cell.num 0]]) "TAI I"
      = some ⟨5, 1, 0, 0, 0⟩ :=
  ⟨by decide, by rfl,
    c8_header_first_match_and_duplicate_sum.1 [[Cell.text "x"]] 1 [] (by decide) (by rfl),
    (c8_header_first_match_and_duplicate_sum.2.2.2
        (colIndexOf ["turma", "seg", "ter", "qua", "qui", "sex"])
        [[Cell.text "TAI I", Cell.num 2, Cell.num 1, Cell.num 0, Cell.num 0,
          Cell.num 0],
         [Cell.text "TAI I", Cell.num 3, Cell.num 0, Cell.num 0, Cell.num 0,
          Cell.num 0]] "TAI I").trans (by decide)⟩

/-! ### Restore lemmas -/

/-- A decided conjunction is false when the conjunction fails. -/
theorem decide_and_eq_false {a b : Prop} [Decidable a] [Decidable b]
    (h : ¬(a ∧ b)) : (decide a && decide b) = false := by
  by_cases h1 : a
  · have h2 : ¬ b := fun hb => h ⟨h1, hb⟩
    simp [h1, h2]
  · simp [h1]

/-- Upserting into `quadro_importado` then looking up: the upserted key now
maps to the new value, every other key is untouched. -/
theorem lookupQuadro_upsert (row : QuadroRow) (store : List QuadroRow)
    (t : String) (d : Nat) :
    lookupQuadro (upsertQuadro row store) t d =
      if row.turma = t ∧ row.data = d then some row.sim
      else lookupQuadro store t d := by
  induction store with
  | nil =>
    by_cases h : row.turma = t ∧ row.data = d
    · simp [upsertQuadro, lookupQuadro, List.find?_cons, h]
    · simp [upsertQuadro, lookupQuadro, List.find?_cons, h, decide_and_eq_false h]
  | cons r rest ih =>
    by_cases hmatch : (r.turma = row.turma && r.data = row.data) = true
    · have hk : r.turma = row.turma ∧ r.data = row.data := by simpa using hmatch
      have heq : upsertQuadro row (r :: rest) = row :: rest := by
        simp [upsertQuadro, hmatch]
      rw [heq]
      by_cases h : row.turma = t ∧ row.data = d
      · simp [lookupQuadro, List.find?_cons, h]
      · have hrb : (r.turma = t && r.data = d) = false := by
          apply decide_and_eq_false
          intro hc
          exact h ⟨hk.1.symm.trans hc.1, hk.2.symm.trans hc.2⟩
        simp [lookupQuadro, List.find?_cons, h, decide_and_eq_false h, hrb]
    · have heq : upsertQuadro row (r :: rest) = r :: upsertQuadro row rest := by
        simp [upsertQuadro, hmatch]
      rw [heq]
      by_cases hr : (r.turma = t && r.data = d) = true
      · have hrk : r.turma = t ∧ r.data = d := by simpa using hr
        have hrowk : ¬(row.turma = t ∧ row.data = d) := by
          intro hc
          exact hmatch (by simp [hrk.1.trans hc.1.symm, hrk.2.trans hc.2.symm])
        simp [lookupQuadro, List.find?_cons, hr, hrowk]
      · have hlhs : lookupQuadro (r :: upsertQuadro row rest) t d
            = lookupQuadro (upsertQuadro row rest) t d := by
          simp [lookupQuadro, List.find?_cons, hr]
        have hrhs : lookupQuadro (r :: rest) t d = lookupQuadro rest t d := by
          simp [lookupQuadro, List.find?_cons, hr]
        rw [hlhs, hrhs, ih]

/-- Upserting a list of rows in order: for each key, the last row in the
list with that key wins; keys not in the list keep their store value. -/
theorem foldl_upsertQuadro_lookup (rows : List QuadroRow)
    (store : List QuadroRow) (t : String) (d : Nat) :
    lookupQuadro (rows.foldl (fun st r => upsertQuadro r st) store) t d =
      match rows.reverse.find? (fun r => r.turma = t && r.data = d) with
      | some r => some r.sim
      | none => lookupQuadro store t d := by
  induction rows generalizing store with
  | nil => simp
  | cons r rest ih =>
    rw [List.foldl_cons, ih (upsertQuadro r store)]
    have hrev : (r :: rest).reverse = rest.reverse ++ [r] := by simp
    rw [hrev, List.find?_append]
    cases hfind : rest.reverse.find? (fun x => x.turma = t && x.data = d) with
    | some rr => simp
    | none =>
      simp only [Option.none_or]
      rw [lookupQuadro_upsert]
      by_cases hreq : r.turma = t ∧ r.data = d
      · simp [List.find?_cons, hreq]
      · simp [List.find?_cons, hreq, decide_and_eq_false hreq]

/-- A scan over archives none of which yields a matching row finds nothing. -/
theorem selectBackup_eq_none (segunda : Nat) (backups : List Backup)
    (h : ∀ b ∈ backups, candidateRows segunda b = []) :
    selectBackup segunda backups = none := by
  induction backups with
  | nil => rfl
  | cons b rest ih =>
    have hb : candidateRows segunda b = [] := h b (by simp)
    simp [selectBackup, hb]
    exact ih fun x hx => h x (by simp [hx])

/-- The newest-first scan returns the candidate rows of the first archive
that yields any, ignoring everything older. -/
theorem selectBackup_first (segunda : Nat) (bs1 : List Backup) (b : Backup)
    (bs2 : List Backup) (h1 : ∀ x ∈ bs1, candidateRows segunda x = [])
    (hb : candidateRows segunda b ≠ []) :
    selectBackup segunda (bs1 ++ b :: bs2) = some (candidateRows segunda b) := by
  induction bs1 with
  | nil => simp [selectBackup, hb]
  | cons x rest ih =>
    have hx : candidateRows segunda x = [] := h1 x (by simp)
    simp [selectBackup, hx]
    exact ih fun y hy => h1 y (by simp [hy])

/-- C6: the restore scans archives newest-first; the first archive yielding
at least one row matching the target Monday-Friday window wins, and exactly
its matching rows are upserted (older archives are ignored even if they
also match); within that archive the last row for a given class+date wins
(replace, not sum); and the operation fails with `NoBackupFound` when no
archive yields any matching row (including when there are no archives). -/
theorem c6_restore_first_archive_wins :
    (∀ (segunda : Nat) (store : List QuadroRow) (backups : List Backup),
        (∀ b ∈ backups, candidateRows segunda b = []) →
        restaurar backups segunda store = .error .noBackupFound)
    ∧ (∀ (segunda : Nat) (store : List QuadroRow) (bs1 : List Backup)
        (b : Backup) (bs2 : List Backup),
        (∀ x ∈ bs1, candidateRows segunda x = []) →
        candidateRows segunda b ≠ [] →
        restaurar (bs1 ++ b :: bs2) segunda store
          = .ok ((candidateRows segunda b).foldl
              (fun st r => upsertQuadro r st) store))
    ∧ (∀ (rows store : List QuadroRow) (t : String) (d : Nat),
        lookupQuadro (rows.foldl (fun st r => upsertQuadro r st) store) t d =
          match rows.reverse.find? (fun r => r.turma = t && r.data = d) with
          | some r => some r.sim
          | none => lookupQuadro store t d) := by
  refine ⟨?_, ?_, foldl_upsertQuadro_lookup⟩
  · intro segunda store backups h
    unfold restaurar
    rw [selectBackup_eq_none segunda backups h]
  · intro segunda store bs1 b bs2 h1 hb
    unfold restaurar
    rw [selectBackup_first segunda bs1 b bs2 h1 hb]

/-- Witness for C6, following the spec's example: the newest archive has no
rows in the target week, the next-newest has three matching rows (with a
duplicated class+date whose later row wins), and an older archive that also
matches is ignored. -/
theorem c6_witness :
    (∀ x ∈ [Backup.mk (some [[Cell.text "turma", Cell.text "data_almoco",
          Cell.text "sim"],
        [Cell.text "TAI I", Cell.text "0001-01-20", Cell.num 9]])],
      candidateRows 8 x = []) ∧
    candidateRows 8 (Backup.mk (some [[Cell.text "turma",
        Cell.text "data_almoco", Cell.text "sim"],
      [Cell.text "TAI I", Cell.dateCell 8, Cell.num 3],
      [Cell.text "TIN I", Cell.dateCell 9, Cell.num 4],
      [Cell.text "TAI I", Cell.dateCell 8, Cell.num 5]])) ≠ [] ∧
    restaurar
        [Backup.mk (some [[Cell.text "turma", Cell.text "data_almoco",
            Cell.text "sim"],
          [Cell.text "TAI I", Cell.text "0001-01-20", Cell.num 9]]),
         Backup.mk (some [[Cell.text "turma", Cell.text "data_almoco",
            Cell.text "sim"],
          [Cell.text "TAI I", Cell.dateCell 8, Cell.num 3],
          [Cell.text "TIN I", Cell.dateCell 9, Cell.num 4],
          [Cell.text "TAI I", Cell.dateCell 8, Cell.num 5]]),
         Backup.mk (some [[Cell.text "turma", Cell.text "data_almoco",
            Cell.text "sim"],
          [Cell.text "TST I", Cell.dateCell 8, Cell.num 7]])] 8 []
      = .ok ((candidateRows 8 (Backup.mk (some [[Cell.text "turma",
            Cell.text "data_almoco", Cell.text "sim"],
          [Cell.text "TAI I", Cell.dateCell 8, Cell.num 3],
          [Cell.text "TIN I", Cell.dateCell 9, Cell.num 4],
          [Cell.text "TAI I", Cell.dateCell 8, Cell.num 5]]))).foldl
          (fun st r => upsertQuadro r st) []) ∧
    lookupQuadro
        ((candidateRows 8 (Backup.mk (some [[Cell.text "turma",
            Cell.text "data_almoco", Cell.text "sim"],
          [Cell.text "TAI I", Cell.dateCell 8, Cell.num 3],
          [Cell.text "TIN I", Cell.dateCell 9, Cell.num 4],
          [Cell.text "TAI I", Cell.dateCell 8, Cell.num 5]]))).foldl
          (fun st r => upsertQuadro r st) []) "TAI I" 8
      = some 5 :=
  ⟨by decide, by decide,
    c6_restore_first_archive_wins.2.1 8 []
      [Backup.mk (some [[Cell.text "turma", Cell.text "data_almoco",
          Cell.text "sim"],
        [Cell.text "TAI I", Cell.text "0001-01-20", Cell.num 9]])]
      (Backup.mk (some [[Cell.text "turma", Cell.text "data_almoco",
          Cell.text "sim"],
        [Cell.text "TAI I", Cell.dateCell 8, Cell.num 3],
        [Cell.text "TIN I", Cell.dateCell 9, Cell.num 4],
        [Cell.text "TAI I", Cell.dateCell 8, Cell.num 5]]))
      [Backup.mk (some [[Cell.text "turma", Cell.text "data_almoco",
          Cell.text "sim"],
        [Cell.text "TST I", Cell.dateCell 8, Cell.num 7]])]
      (by decide) (by decide),
    (c6_restore_first_archive_wins.2.2
        (candidateRows 8 (Backup.mk (some [[Cell.text "turma",
            Cell.text "data_almoco", Cell.text "sim"],
          [Cell.text "TAI I", Cell.dateCell 8, Cell.num 3],
          [Cell.text "TIN I", Cell.dateCell 9, Cell.num 4],
          [Cell.text "TAI I", Cell.dateCell 8, Cell.num 5]])))
        [] "TAI I" 8).trans (by decide)⟩

end Almoco












